import Mathlib

/-!
Verification development for the yt-summarizer repository.

The source under scrutiny is `src/app/api/summarize/route.js` together with the
two history endpoints.  JavaScript strings are modelled as `List Char` (one
entry per code point); JavaScript numbers that are used as lengths and indices
are modelled as `Nat`.  Fallible steps (awaited calls that may throw) are
modelled with an explicit `Res` result type, and the streaming `POST` handler
is modelled as a function from an environment of collaborator outcomes to the
trace of events written to the stream, actions performed, and stream closes.
-/

set_option maxRecDepth 4000

/-- JavaScript strings are modelled as lists of characters. -/
abbrev Str := List Char

namespace YtSum

/-- Subset of the characters recognised by JavaScript `\s` / `String.trim`
(sufficient for the inputs considered here; the full set also contains the
more exotic Unicode space separators). -/
def isJsSpace (c : Char) : Bool :=
  c = ' ' ∨ c = '\t' ∨ c = '\n' ∨ c = '\r' ∨ c = '\x0b' ∨ c = '\x0c' ∨
  c = '\u00A0' ∨ c = '\uFEFF'

/-- JavaScript `String.prototype.trim`: drop leading and trailing whitespace. -/
def jsTrim (s : Str) : Str :=
  ((s.dropWhile isJsSpace).reverse.dropWhile isJsSpace).reverse

/-- JavaScript `a || b` on strings: the empty string is falsy. -/
def jsOr (a b : Str) : Str :=
  if a = [] then b else a

/-!
## ChunkSplitter — `splitTranscriptIntoChunks` (route.js lines 162-184)

```js
async function splitTranscriptIntoChunks(transcript, chunkSize = 7000, overlap = 1000) {
  const words = transcript.split(' ');
  const chunks = [];
  let currentChunk = [];
  let currentLength = 0;
  for (const word of words) {
    if (currentLength + word.length > chunkSize && currentChunk.length > 0) {
      chunks.push(currentChunk.join(' '));
      const overlapWords = currentChunk.slice(-Math.floor(overlap / 10));
      currentChunk = [...overlapWords];
      currentLength = overlapWords.join(' ').length;
    }
    currentChunk.push(word);
    currentLength += word.length + 1;
  }
  if (currentChunk.length > 0) {
    chunks.push(currentChunk.join(' '));
  }
  return chunks;
}
```
-/

/-- JavaScript `s.split(' ')` (single-character separator, non-regex): the
result always has one segment more than the number of separators, so it is
never empty, and `"".split(' ')` is `[""]`. -/
def jsSplitSpace : Str → List Str
  | [] => [[]]
  | c :: rest =>
    if c = ' ' then [] :: jsSplitSpace rest
    else
      match jsSplitSpace rest with
      | [] => [[c]]
      | w :: ws => (c :: w) :: ws

/-- JavaScript `arr.join(' ')` for an array of strings. -/
def joinSp : List Str → Str
  | [] => []
  | [w] => w
  | w :: rest => w ++ ' ' :: joinSp rest

/-- JavaScript `arr.slice(-k)`:  for `k = 0` this is `arr.slice(0)`, i.e. the
whole array (because `-0 === 0`); otherwise it is the last `k` elements. -/
def jsSliceNeg (l : List Str) (k : Nat) : List Str :=
  if k = 0 then l else l.drop (l.length - k)

/-- The `for (const word of words)` loop of `splitTranscriptIntoChunks`,
with the loop state (`chunks`, `currentChunk`, `currentLength`) explicit. -/
def chunkLoopW (chunkSize overlap : Nat) :
    List Str → List Str → List Str → Nat → List Str
  | [], chunks, currentChunk, _ =>
    if currentChunk.length > 0 then chunks ++ [joinSp currentChunk] else chunks
  | w :: rest, chunks, currentChunk, currentLength =>
    if currentLength + w.length > chunkSize ∧ currentChunk.length > 0 then
      let overlapWords := jsSliceNeg currentChunk (overlap / 10)
      chunkLoopW chunkSize overlap rest (chunks ++ [joinSp currentChunk])
        (overlapWords ++ [w]) ((joinSp overlapWords).length + (w.length + 1))
    else
      chunkLoopW chunkSize overlap rest chunks (currentChunk ++ [w])
        (currentLength + (w.length + 1))

/-- `splitTranscriptIntoChunks` from route.js (the `async` wrapper adds
nothing: the body performs no awaits). -/
def splitTranscriptIntoChunks (transcript : Str)
    (chunkSize : Nat := 7000) (overlap : Nat := 1000) : List Str :=
  chunkLoopW chunkSize overlap (jsSplitSpace transcript) [] [] 0

lemma jsSplitSpace_ne_nil (s : Str) : jsSplitSpace s ≠ [] := by
  cases s with
  | nil => simp [jsSplitSpace]
  | cons c rest =>
    simp only [jsSplitSpace]
    split
    · simp
    · split <;> simp

/-- Every word produced by `split(' ')` is free of spaces. -/
lemma jsSplitSpace_words_no_space (s : Str) :
    ∀ w ∈ jsSplitSpace s, ' ' ∉ w := by
  induction s with
  | nil =>
    intro w hw
    rw [List.mem_singleton.mp hw]
    simp
  | cons c rest ih =>
    intro w hw
    simp only [jsSplitSpace] at hw
    split at hw
    · rcases List.mem_cons.mp hw with h | h
      · rw [h]; simp
      · exact ih w h
    next hsp =>
      cases hr : jsSplitSpace rest with
      | nil => exact absurd hr (jsSplitSpace_ne_nil rest)
      | cons w0 ws =>
        rw [hr] at hw
        rcases List.mem_cons.mp hw with h | h
        · rw [h]
          intro hmem
          rcases List.mem_cons.mp hmem with h' | h'
          · exact hsp h'.symm
          · exact ih w0 (by rw [hr]; simp) h'
        · exact ih w (by rw [hr]; simp [h])

lemma jsSplitSpace_no_space (a : Str) (h : ' ' ∉ a) : jsSplitSpace a = [a] := by
  induction a with
  | nil => rfl
  | cons c rest ih =>
    simp only [jsSplitSpace]
    rw [if_neg (by simp at h; exact Ne.symm h.1)]
    rw [ih (by simp at h; exact h.2)]

lemma jsSplitSpace_append_space (a r : Str) (h : ' ' ∉ a) :
    jsSplitSpace (a ++ ' ' :: r) = a :: jsSplitSpace r := by
  induction a with
  | nil => simp [jsSplitSpace]
  | cons c rest ih =>
    simp only [List.cons_append, jsSplitSpace, List.append_eq]
    rw [if_neg (by simp at h; exact Ne.symm h.1)]
    rw [ih (by simp at h; exact h.2)]

/-- Splitting is a left inverse of the space-join on non-empty lists of
space-free words: a join of `n` such words splits back into exactly those
`n` words. -/
lemma jsSplitSpace_joinSp (ws : List Str) (hne : ws ≠ [])
    (hsp : ∀ w ∈ ws, ' ' ∉ w) : jsSplitSpace (joinSp ws) = ws := by
  induction ws with
  | nil => exact absurd rfl hne
  | cons w rest ih =>
    cases rest with
    | nil => simpa [joinSp] using jsSplitSpace_no_space w (hsp w (by simp))
    | cons x rest2 =>
      rw [show joinSp (w :: x :: rest2) = w ++ ' ' :: joinSp (x :: rest2)
        from rfl]
      rw [jsSplitSpace_append_space w _ (hsp w (by simp))]
      rw [ih (by simp) (fun y hy => hsp y (by simp [hy]))]

/-- Bound satisfied by every chunk the splitter produces: either the chunk
fits in `chunkSize + 1` characters, or the chunk itself consists of at most
`⌊overlap/10⌋ + 1` space-separated words (an overlap seed plus the one word
whose arrival overflowed the bound — the single-oversized-word case is the
instance with an empty seed). -/
def ChunkOK (cs ov : Nat) (c : Str) : Prop :=
  c.length ≤ cs + 1 ∨ (jsSplitSpace c).length ≤ ov / 10 + 1

lemma joinSp_length_append_single (l : List Str) (w : Str) :
    (joinSp (l ++ [w])).length ≤ (joinSp l).length + (w.length + 1) := by
  induction l with
  | nil => simp [joinSp]
  | cons a rest ih =>
    cases rest with
    | nil => simp [joinSp]
    | cons b rest2 =>
      simp only [List.cons_append, joinSp, List.append_eq,
        List.length_append, List.length_cons] at ih ⊢
      omega

lemma jsSliceNeg_length_le (l : List Str) (k : Nat) (hk : k ≠ 0) :
    (jsSliceNeg l k).length ≤ k := by
  simp only [jsSliceNeg, hk, if_false, List.length_drop]
  omega

lemma jsSliceNeg_subset (l : List Str) (k : Nat) :
    ∀ x ∈ jsSliceNeg l k, x ∈ l := by
  intro x hx
  unfold jsSliceNeg at hx
  split at hx
  · exact hx
  · exact List.mem_of_mem_drop hx

lemma close_ok (cs ov : Nat) (cur : List Str) (len : Nat)
    (hj : (joinSp cur).length ≤ len)
    (hst : len ≤ cs + 1 ∨ (cur ≠ [] ∧ cur.length ≤ ov / 10 + 1))
    (hsp : ∀ x ∈ cur, ' ' ∉ x) :
    ChunkOK cs ov (joinSp cur) := by
  rcases hst with h | ⟨hne, hle⟩
  · exact Or.inl (hj.trans h)
  · right
    rw [jsSplitSpace_joinSp cur hne hsp]
    exact hle

/-- Loop invariant for the splitter: the pending words are space-free, the
running length dominates the length of the join of the current chunk, and
the current state either still fits the bound or is an overlap-seeded chunk
of at most `⌊ov/10⌋ + 1` words. -/
lemma chunkLoopW_ok (cs ov : Nat) (hov : 1 ≤ ov / 10) :
    ∀ (words chunks cur : List Str) (len : Nat),
      (∀ w ∈ words, ' ' ∉ w) →
      (∀ x ∈ cur, ' ' ∉ x) →
      (∀ c ∈ chunks, ChunkOK cs ov c) →
      (joinSp cur).length ≤ len →
      (len ≤ cs + 1 ∨ (cur ≠ [] ∧ cur.length ≤ ov / 10 + 1)) →
      ∀ c ∈ chunkLoopW cs ov words chunks cur len, ChunkOK cs ov c := by
  intro words
  induction words with
  | nil =>
    intro chunks cur len hw hcursp hch hj hst c hc
    simp only [chunkLoopW] at hc
    split at hc
    · rcases List.mem_append.mp hc with h | h
      · exact hch c h
      · rcases List.mem_singleton.mp h with rfl
        exact close_ok cs ov cur len hj hst hcursp
    · exact hch c hc
  | cons w rest ih =>
    intro chunks cur len hw hcursp hch hj hst c hc
    simp only [chunkLoopW] at hc
    split at hc
    case isTrue hcond =>
      refine ih _ _ _ (fun x hx => hw x (by simp [hx])) ?_ ?_ ?_ ?_ c hc
      · intro x hx
        rcases List.mem_append.mp hx with h | h
        · exact hcursp x (jsSliceNeg_subset cur (ov / 10) x h)
        · rw [List.mem_singleton.mp h]
          exact hw w (by simp)
      · intro c' hc'
        rcases List.mem_append.mp hc' with h | h
        · exact hch c' h
        · rcases List.mem_singleton.mp h with rfl
          exact close_ok cs ov cur len hj hst hcursp
      · exact joinSp_length_append_single _ w
      · refine Or.inr ⟨by simp, ?_⟩
        have hs := jsSliceNeg_length_le cur (ov / 10) (by omega)
        simp only [List.length_append, List.length_singleton]
        omega
    case isFalse hcond =>
      refine ih _ _ _ (fun x hx => hw x (by simp [hx])) ?_ hch ?_ ?_ c hc
      · intro x hx
        rcases List.mem_append.mp hx with h | h
        · exact hcursp x h
        · rw [List.mem_singleton.mp h]
          exact hw w (by simp)
      · calc (joinSp (cur ++ [w])).length
            ≤ (joinSp cur).length + (w.length + 1) :=
              joinSp_length_append_single cur w
          _ ≤ len + (w.length + 1) := by omega
      · rcases Decidable.not_and_iff_or_not.mp hcond with h | h
        · exact Or.inl (by omega)
        · have hcur : cur = [] := by
            cases cur with
            | nil => rfl
            | cons a l => simp at h
          subst hcur
          exact Or.inr ⟨by simp, by simp⟩

/-- C2 (amended): for every input text and parameters with `overlap ≥ 10`,
every chunk either has character length at most `chunkSize + 1`, or itself
splits on spaces into at most `⌊overlap/10⌋ + 1` words (the overlap seed
plus the single word whose arrival overflowed the bound; with an empty seed
this is the original "single word longer than chunkSize" exception).  The
bound `chunkSize` of the claim is off by one for overlap-seeded chunks, and
chunks assembled from an overlap seed plus one oversized word can exceed
any bound while holding several words. -/
theorem splitTranscript_chunk_bound (cs ov : Nat) (hov : 1 ≤ ov / 10)
    (t : Str) :
    ∀ c ∈ splitTranscriptIntoChunks t cs ov,
      c.length ≤ cs + 1 ∨ (jsSplitSpace c).length ≤ ov / 10 + 1 :=
  chunkLoopW_ok cs ov hov (jsSplitSpace t) [] [] 0
    (jsSplitSpace_words_no_space t) (by intro x hx; cases hx)
    (by intro c hc; cases hc) (by simp [joinSp]) (Or.inl (by omega))

/-- Witness for `splitTranscript_chunk_bound` at a concrete input. -/
theorem splitTranscript_chunk_bound_witness :
    (1 ≤ 10 / 10) ∧
    "cd e x".toList ∈ splitTranscriptIntoChunks "ab cd e x".toList 5 10 ∧
    (("cd e x".toList : Str).length ≤ 5 + 1 ∨
      (jsSplitSpace "cd e x".toList).length ≤ 10 / 10 + 1) :=
  ⟨by decide, by decide,
    splitTranscript_chunk_bound 5 10 (by decide) "ab cd e x".toList
      "cd e x".toList (by decide)⟩

/-- C2 counterexample: with `chunkSize = 5`, `overlap = 10`, the input
`"ab cd e x"` produces the chunk `"cd e x"` of length 6 > 5 which contains
spaces, i.e. is not a single unsplit word: the claim as stated fails. -/
theorem splitTranscript_chunk_bound_cex :
    ¬ (∀ c ∈ splitTranscriptIntoChunks "ab cd e x".toList 5 10,
        c.length ≤ 5 ∨ (' ' ∉ c ∧ 5 < c.length)) := by
  decide

lemma joinSp_ne_nil (l : List Str) (hne : l ≠ [])
    (hall : ∀ x ∈ l, x ≠ []) : joinSp l ≠ [] := by
  match l with
  | [w] => simpa [joinSp] using hall w (by simp)
  | w :: x :: xs => simp [joinSp]

/-- Every chunk the loop produces is non-empty, provided every word of the
input, every word of the pending chunk, and every already-closed chunk is
non-empty. -/
lemma chunkLoopW_ne_nil_elems (cs ov : Nat) :
    ∀ (words chunks cur : List Str) (len : Nat),
      (∀ w ∈ words, w ≠ []) → (∀ x ∈ cur, x ≠ []) →
      (∀ c ∈ chunks, c ≠ []) →
      ∀ c ∈ chunkLoopW cs ov words chunks cur len, c ≠ [] := by
  intro words
  induction words with
  | nil =>
    intro chunks cur len _ hcur hch c hc
    simp only [chunkLoopW] at hc
    split at hc
    case isTrue h =>
      rcases List.mem_append.mp hc with h' | h'
      · exact hch c h'
      · rcases List.mem_singleton.mp h' with rfl
        exact joinSp_ne_nil cur (by intro hnil; simp [hnil] at h) hcur
    case isFalse h => exact hch c hc
  | cons w rest ih =>
    intro chunks cur len hw hcur hch c hc
    simp only [chunkLoopW] at hc
    split at hc
    case isTrue hcond =>
      refine ih _ _ _ (fun x hx => hw x (by simp [hx])) ?_ ?_ c hc
      · intro x hx
        rcases List.mem_append.mp hx with h | h
        · exact hcur x (jsSliceNeg_subset cur (ov / 10) x h)
        · rw [List.mem_singleton.mp h]
          exact hw w (by simp)
      · intro c' hc'
        rcases List.mem_append.mp hc' with h | h
        · exact hch c' h
        · rw [List.mem_singleton.mp h]
          exact joinSp_ne_nil cur
            (by intro hnil; simp [hnil] at hcond) hcur
    case isFalse hcond =>
      refine ih _ _ _ (fun x hx => hw x (by simp [hx])) ?_ hch c hc
      intro x hx
      rcases List.mem_append.mp hx with h | h
      · exact hcur x h
      · rw [List.mem_singleton.mp h]
        exact hw w (by simp)

/-- C7 (amended): on the empty input the splitter returns one chunk, the
empty string (because JavaScript `"".split(' ')` is `[""]`), not the empty
sequence; and whenever every space-separated word of the input is non-empty
(no leading, trailing or doubled spaces in a non-empty input), no chunk is
empty. -/
theorem splitTranscript_empty_and_nonempty :
    (∀ cs ov : Nat, splitTranscriptIntoChunks [] cs ov = [[]]) ∧
    (∀ (t : Str) (cs ov : Nat), (∀ w ∈ jsSplitSpace t, w ≠ []) →
      ∀ c ∈ splitTranscriptIntoChunks t cs ov, c ≠ []) := by
  constructor
  · intro cs ov
    simp [splitTranscriptIntoChunks, jsSplitSpace, chunkLoopW, joinSp]
  · intro t cs ov hw
    exact chunkLoopW_ne_nil_elems cs ov (jsSplitSpace t) [] [] 0 hw
      (by intro x hx; cases hx) (by intro c hc; cases hc)

/-- Witness for `splitTranscript_empty_and_nonempty` at a concrete input. -/
theorem splitTranscript_empty_and_nonempty_witness :
    splitTranscriptIntoChunks [] 7000 1000 = [[]] ∧
    ((∀ w ∈ jsSplitSpace "ab cd".toList, w ≠ []) ∧
      ∀ c ∈ splitTranscriptIntoChunks "ab cd".toList 7000 1000, c ≠ []) :=
  ⟨splitTranscript_empty_and_nonempty.1 7000 1000,
    by decide,
    splitTranscript_empty_and_nonempty.2 "ab cd".toList 7000 1000 (by decide)⟩

/-- C7 counterexample: on the empty input the result is `[""]` — a non-empty
sequence containing an empty chunk — while the claim requires the empty
sequence. -/
theorem splitTranscript_empty_cex :
    splitTranscriptIntoChunks [] 7000 1000 = [[]] ∧
    splitTranscriptIntoChunks [] 7000 1000 ≠ [] ∧
    [] ∈ splitTranscriptIntoChunks [] 7000 1000 := by
  decide

/-!
## OutputSanitizer — `cleanModelOutput` (route.js lines 76-97)

The sanitizer is a chain of eighteen `String.replace` calls, each with an
empty replacement: sixteen case-insensitive patterns anchored at the start of
the string, followed by two global multiline patterns anchored at the start
of a line, followed by `trim()`.  To model it faithfully we embed a small
backtracking regular-expression engine over code points whose backtracking
order (alternation left to right, greedy quantifiers longest first, lazy
quantifiers shortest first) matches the JavaScript one, and transcribe every
pattern of the source one for one.

Modelling notes on code units: the source patterns name the emoji 🎯 and 🎙️
inside character classes; at UTF-16 granularity these classes contain the
individual surrogate halves and the variation selector U+FE0F.  At code-point
granularity the corresponding class membership is the set 🎯, 🎙, U+FE0F, and
that is what the embedded classes contain.  Case folding is ASCII plus the
German capital umlauts appearing in the patterns.
-/

/-- Abstract syntax of the regular-expression fragment the sanitizer uses:
literals, character classes, concatenation, alternation, greedy and lazy
quantifiers, option, and negative lookahead. -/
inductive RE where
  | eps : RE
  | lit (c : Char) : RE
  | cpred (neg : Bool) (p : Char → Bool) : RE
  | seq (a b : RE) : RE
  | alt (a b : RE) : RE
  | starL (r : RE) : RE
  | starG (r : RE) : RE
  | plusG (r : RE) : RE
  | opt (r : RE) : RE
  | nla (r : RE) : RE

/-- Case folding used by the `/i` flag: ASCII lowering plus the German
capital umlauts that occur in the source patterns. -/
def jsFoldCase (c : Char) : Char :=
  if c = 'Ü' then 'ü' else if c = 'Ö' then 'ö' else if c = 'Ä' then 'ä'
  else c.toLower

/-- Character comparison, optionally case-insensitive. -/
def ceq (ci : Bool) (p c : Char) : Bool :=
  if ci then jsFoldCase p = jsFoldCase c else p = c

/-- Backtracking matcher in continuation-passing style.  The continuation
receives the rest of the input after the part consumed so far and returns
the rest of the input after a complete match, if any; the first success in
backtracking order is returned, which reproduces the JavaScript choice of
match.  The fuel bounds the depth of one backtracking path and is chosen
large enough below (`fuelFor`) that it is never exhausted on the patterns at
hand, whose quantifier bodies all consume at least one character. -/
def mre (ci : Bool) : Nat → RE → Str → (Str → Option Str) → Option Str
  | 0, _, _, _ => none
  | fuel + 1, r, s, k =>
    match r with
    | .eps => k s
    | .lit c =>
      match s with
      | [] => none
      | x :: rest => if ceq ci c x then k rest else none
    | .cpred neg p =>
      match s with
      | [] => none
      | x :: rest => if (p x) != neg then k rest else none
    | .seq a b => mre ci fuel a s (fun s' => mre ci fuel b s' k)
    | .alt a b =>
      match mre ci fuel a s k with
      | some res => some res
      | none => mre ci fuel b s k
    | .starL r0 =>
      match k s with
      | some res => some res
      | none => mre ci fuel r0 s (fun s' => mre ci fuel (.starL r0) s' k)
    | .starG r0 =>
      match mre ci fuel r0 s (fun s' => mre ci fuel (.starG r0) s' k) with
      | some res => some res
      | none => k s
    | .plusG r0 => mre ci fuel r0 s (fun s' => mre ci fuel (.starG r0) s' k)
    | .opt r0 =>
      match mre ci fuel r0 s k with
      | some res => some res
      | none => k s
    | .nla r0 =>
      match mre ci fuel r0 s (fun s' => some s') with
      | some _ => none
      | none => k s

/-- Structural size of a pattern, used only to pick a sufficient fuel. -/
def reSize : RE → Nat
  | .eps | .lit _ | .cpred _ _ => 1
  | .seq a b | .alt a b => reSize a + reSize b + 1
  | .starL r | .starG r | .plusG r | .opt r | .nla r => reSize r + 1

def fuelFor (r : RE) (s : Str) : Nat := (s.length + 1) * (reSize r + 2) + 8

/-- Match `r` anchored at the start of `s`; returns the input remaining
after the matched span. -/
def reMatch (ci : Bool) (r : RE) (s : Str) : Option Str :=
  mre ci (fuelFor r s) r s (fun rest => some rest)

/-- One `s.replace(/^pat/flag, '')` with a pattern anchored at the start of
the string and no `g`/`m` flags: a single substitution at position 0. -/
def replaceAnchored (ci : Bool) (r : RE) (s : Str) : Str :=
  match reMatch ci r s with
  | some rest => rest
  | none => s

/-- Whether the character of `s` immediately before the suffix `rest'`
is a newline (used to decide if the position after a global match is a
line start for the `m` flag). -/
def lastMatchedIsNl (s rest' : Str) : Bool :=
  match (s.take (s.length - rest'.length)).getLast? with
  | some c => c = '\n'
  | none => false

/-- One `s.replace(/^pat/gm, '')`: scan left to right, attempt the pattern
at the start of the string and after every newline, remove each match and
continue after it.  The patterns used with this flag always consume at
least one character; the defensive `else` branch keeps the scan well
founded regardless. -/
def replaceAllLineAnchored : Nat → RE → Str → Bool → Str
  | 0, _, s, _ => s
  | fuel + 1, r, s, atStart =>
    match s with
    | [] => []
    | c :: rest =>
      if atStart then
        match reMatch false r s with
        | some rest' =>
          if rest'.length < s.length then
            replaceAllLineAnchored fuel r rest' (lastMatchedIsNl s rest')
          else
            c :: replaceAllLineAnchored fuel r rest (c = '\n')
        | none => c :: replaceAllLineAnchored fuel r rest (c = '\n')
      else c :: replaceAllLineAnchored fuel r rest (c = '\n')

def replaceGm (r : RE) (s : Str) : Str :=
  replaceAllLineAnchored (s.length + 1) r s true

/-- Sequence of literal characters. -/
def rchars (s : Str) : RE :=
  s.foldr (fun c acc => .seq (.lit c) acc) .eps

def rlit (s : String) : RE := rchars s.toList

/-- Left-to-right alternation, as written in the source patterns. -/
def ralts : List RE → RE
  | [] => .eps
  | [r] => r
  | r :: rest => .alt r (ralts rest)

/-- The class `[^]`: any character, newlines included. -/
def rAnyIncl : RE := .cpred true (fun _ => false)

/-- The metacharacter `.`: any character except line terminators. -/
def rDot : RE :=
  .cpred false
    (fun c => ¬ (c = '\n' ∨ c = '\r' ∨ c = '\u2028' ∨ c = '\u2029'))

def rSp : RE := .cpred false isJsSpace

def rSpStar : RE := .starG rSp

/-- The class `[\s\d]`. -/
def rDigitOrSp : RE := .cpred false (fun c => isJsSpace c ∨ c.isDigit)

/-- The group `Here'?s?( is)?`. -/
def reHeres : RE :=
  .seq (rlit "Here") (.seq (.opt (.lit '\'')) (.seq (.opt (.lit 's'))
    (.opt (rlit " is"))))

/-- Source pattern `/^(Okay|Here'?s?( is)?|Let me|I will|I'll|I can|I
would|I am going to|Allow me to|Sure|Of course|Certainly|Alright)[^]*?,\s*/i`. -/
def rule1 : RE :=
  .seq (ralts [rlit "Okay", reHeres, rlit "Let me", rlit "I will",
    rlit "I'll", rlit "I can", rlit "I would", rlit "I am going to",
    rlit "Allow me to", rlit "Sure", rlit "Of course", rlit "Certainly",
    rlit "Alright"])
    (.seq (.starL rAnyIncl) (.seq (.lit ',') rSpStar))

/-- The group `I'?ll?`. -/
def reIll : RE :=
  .seq (.lit 'I') (.seq (.opt (.lit '\'')) (.seq (.lit 'l') (.opt (.lit 'l'))))

/-- Source pattern `/^(Here'?s?( is)?|I'?ll?|Let me|I will|I can|I would|I
am going to|Allow me to|Sure|Of course|Certainly)[^]*?(summary|translate|
breakdown|analysis).*?:\s*/i`. -/
def rule2 : RE :=
  .seq (ralts [reHeres, reIll, rlit "Let me", rlit "I will", rlit "I can",
    rlit "I would", rlit "I am going to", rlit "Allow me to", rlit "Sure",
    rlit "Of course", rlit "Certainly"])
    (.seq (.starL rAnyIncl)
      (.seq (ralts [rlit "summary", rlit "translate", rlit "breakdown",
        rlit "analysis"])
        (.seq (.starL rDot) (.seq (.lit ':') rSpStar))))

/-- Source pattern `/^(Based on|According to).*?,\s*/i`. -/
def rule3 : RE :=
  .seq (ralts [rlit "Based on", rlit "According to"])
    (.seq (.starL rDot) (.seq (.lit ',') rSpStar))

/-- Source pattern `/^I understand.*?[.!]\s*/i`. -/
def rule4 : RE :=
  .seq (rlit "I understand")
    (.seq (.starL rDot)
      (.seq (.cpred false (fun c => c = '.' ∨ c = '!')) rSpStar))

/-- Source pattern `/^(Now|First|Let's),?\s*/i`. -/
def rule5 : RE :=
  .seq (ralts [rlit "Now", rlit "First", rlit "Let's"])
    (.seq (.opt (.lit ',')) rSpStar)

/-- Source pattern `/^(Here are|The following is|This is|Below is).*?:\s*/i`. -/
def rule6 : RE :=
  .seq (ralts [rlit "Here are", rlit "The following is", rlit "This is",
    rlit "Below is"])
    (.seq (.starL rDot) (.seq (.lit ':') rSpStar))

/-- Source pattern `/^(I'll provide|Let me break|I'll break|I'll help|I've
structured).*?:\s*/i`. -/
def rule7 : RE :=
  .seq (ralts [rlit "I'll provide", rlit "Let me break", rlit "I'll break",
    rlit "I'll help", rlit "I've structured"])
    (.seq (.starL rDot) (.seq (.lit ':') rSpStar))

/-- Source pattern `/^(As requested|Following your|In response to).*?:\s*/i`. -/
def rule8 : RE :=
  .seq (ralts [rlit "As requested", rlit "Following your",
    rlit "In response to"])
    (.seq (.starL rDot) (.seq (.lit ':') rSpStar))

/-- The group `Hier( ist)?`. -/
def reHier : RE := .seq (rlit "Hier") (.opt (rlit " ist"))

/-- Source pattern `/^(Okay|Hier( ist)?|Lass mich|Ich werde|Ich kann|Ich
würde|Ich möchte|Erlauben Sie mir|Sicher|Natürlich|Gewiss|In
Ordnung)[^]*?,\s*/i`. -/
def rule9 : RE :=
  .seq (ralts [rlit "Okay", reHier, rlit "Lass mich", rlit "Ich werde",
    rlit "Ich kann", rlit "Ich würde", rlit "Ich möchte",
    rlit "Erlauben Sie mir", rlit "Sicher", rlit "Natürlich", rlit "Gewiss",
    rlit "In Ordnung"])
    (.seq (.starL rAnyIncl) (.seq (.lit ',') rSpStar))

/-- Source pattern `/^(Hier( ist)?|Ich werde|Lass mich|Ich kann|Ich
würde|Ich möchte)[^]*?(Zusammenfassung|Übersetzung|Analyse).*?:\s*/i`. -/
def rule10 : RE :=
  .seq (ralts [reHier, rlit "Ich werde", rlit "Lass mich", rlit "Ich kann",
    rlit "Ich würde", rlit "Ich möchte"])
    (.seq (.starL rAnyIncl)
      (.seq (ralts [rlit "Zusammenfassung", rlit "Übersetzung",
        rlit "Analyse"])
        (.seq (.starL rDot) (.seq (.lit ':') rSpStar))))

/-- Source pattern `/^(Basierend auf|Laut|Gemäß).*?,\s*/i`. -/
def rule11 : RE :=
  .seq (ralts [rlit "Basierend auf", rlit "Laut", rlit "Gemäß"])
    (.seq (.starL rDot) (.seq (.lit ',') rSpStar))

/-- Source pattern `/^Ich verstehe.*?[.!]\s*/i`. -/
def rule12 : RE :=
  .seq (rlit "Ich verstehe")
    (.seq (.starL rDot)
      (.seq (.cpred false (fun c => c = '.' ∨ c = '!')) rSpStar))

/-- Source pattern `/^(Jetzt|Zunächst|Lass uns),?\s*/i`. -/
def rule13 : RE :=
  .seq (ralts [rlit "Jetzt", rlit "Zunächst", rlit "Lass uns"])
    (.seq (.opt (.lit ',')) rSpStar)

/-- Source pattern `/^(Hier sind|Folgendes|Dies ist|Im Folgenden).*?:\s*/i`. -/
def rule14 : RE :=
  .seq (ralts [rlit "Hier sind", rlit "Folgendes", rlit "Dies ist",
    rlit "Im Folgenden"])
    (.seq (.starL rDot) (.seq (.lit ':') rSpStar))

/-- Source pattern `/^(Ich werde|Lass mich|Ich helfe|Ich habe
strukturiert).*?:\s*/i`. -/
def rule15 : RE :=
  .seq (ralts [rlit "Ich werde", rlit "Lass mich", rlit "Ich helfe",
    rlit "Ich habe strukturiert"])
    (.seq (.starL rDot) (.seq (.lit ':') rSpStar))

/-- Source pattern `/^(Wie gewünscht|Entsprechend Ihrer|Als Antwort
auf).*?:\s*/i`. -/
def rule16 : RE :=
  .seq (ralts [rlit "Wie gewünscht", rlit "Entsprechend Ihrer",
    rlit "Als Antwort auf"])
    (.seq (.starL rDot) (.seq (.lit ':') rSpStar))

/-- Code points excluded by the class `[^:\n🎯🎙️#*\-•]` of the first
global pattern (the emoji stand for their code units; at code-point
granularity the excluded set is the two emoji plus U+FE0F). -/
def g1Class : List Char := [':', '\n', '🎯', '🎙', '\uFE0F', '#', '*', '-', '•']

/-- Source pattern `/^[^:\n🎯🎙️#*\-•]+:\s*/gm`. -/
def ruleG1 : RE :=
  .seq (.plusG (.cpred true (fun c => g1Class.contains c)))
    (.seq (.lit ':') rSpStar)

/-- Code points of the lookahead class `[#*\-•🎯️]` of the second global
pattern. -/
def g2Class : List Char := ['#', '*', '-', '•', '🎯', '\uFE0F']

/-- Source pattern `/^(?![#*\-•🎯️])[\s\d]+\.\s*/gm`. -/
def ruleG2 : RE :=
  .seq (.nla (.cpred false (fun c => g2Class.contains c)))
    (.seq (.plusG rDigitOrSp) (.seq (.lit '.') rSpStar))

/-- `cleanModelOutput` from route.js: the eighteen substitutions applied in
source order, then `trim()`. -/
def cleanModelOutput (text : Str) : Str :=
  jsTrim
    (replaceGm ruleG2
      (replaceGm ruleG1
        (replaceAnchored true rule16
          (replaceAnchored true rule15
            (replaceAnchored true rule14
              (replaceAnchored true rule13
                (replaceAnchored true rule12
                  (replaceAnchored true rule11
                    (replaceAnchored true rule10
                      (replaceAnchored true rule9
                        (replaceAnchored true rule8
                          (replaceAnchored true rule7
                            (replaceAnchored true rule6
                              (replaceAnchored true rule5
                                (replaceAnchored true rule4
                                  (replaceAnchored true rule3
                                    (replaceAnchored true rule2
                                      (replaceAnchored true rule1
                                        text))))))))))))))))))

/-- C8: the sanitizer maps `"Here's a summary: The video discusses X."` to
`"The video discusses X."` (the second pattern strips the lead-in through
the colon), and leaves `"🎯 TITLE: My Video\nBody text"` unchanged — the
line-anchored label-stripping pattern excludes lines that start with the
reserved emoji markers, heading or bullet glyphs. -/
theorem cleanModelOutput_examples :
    cleanModelOutput "Here's a summary: The video discusses X.".toList =
      "The video discusses X.".toList ∧
    cleanModelOutput "🎯 TITLE: My Video\nBody text".toList =
      "🎯 TITLE: My Video\nBody text".toList := by
  exact ⟨by decide, by decide⟩

/-!
## History endpoints — `extractTitleFromContent`

Both history routes define an `extractTitleFromContent` of identical shape;
they differ only in the four marker prefixes and in the character class of
the final `replace(/^[...]\s*/, '')`.  (`app/api/history/route.js` uses the
emoji markers; `app/api/history/[id]/route.js` carries mojibake variants of
the same markers.)  The shared shape is captured once and instantiated with
each file's constants.
-/

/-- JavaScript `s.split(sep)` for a single-character separator. -/
def jsSplitChar (sep : Char) : Str → List Str
  | [] => [[]]
  | c :: rest =>
    if c = sep then [] :: jsSplitChar sep rest
    else
      match jsSplitChar sep rest with
      | [] => [[c]]
      | w :: ws => (c :: w) :: ws

/-- The two per-file constants of `extractTitleFromContent`: the marker
prefixes recognised by the `startsWith` tests and the code points of the
glyph class stripped from the fallback line. -/
structure TitleCfg where
  markers : List Str
  glyphs : List Char

/-- The `for (const line of lines)` loop: on a line whose trimmed form
starts with one of the markers, take `split(':')[1].trim()`; return it when
non-empty, otherwise keep scanning.  (Under the `startsWith` guard the
split always has a second component, so the `getD` default is never
used.) -/
def markerTitleLoop (cfg : TitleCfg) : List Str → Option Str
  | [] => none
  | line :: rest =>
    let trimmedLine := jsTrim line
    if cfg.markers.any (fun m => m.isPrefixOf trimmedLine) then
      let title := jsTrim (List.getD (jsSplitChar ':' trimmedLine) 1 [])
      if title ≠ [] then some title else markerTitleLoop cfg rest
    else markerTitleLoop cfg rest

/-- The fallback `replace(/^[glyphs]\s*/, '')`: one glyph-class code point
followed by greedy whitespace, substituted once at the start. -/
def stripLeadGlyph (cfg : TitleCfg) (s : Str) : Str :=
  match s with
  | [] => []
  | c :: rest =>
    if cfg.glyphs.contains c then rest.dropWhile isJsSpace else s

/-- Shared body of `extractTitleFromContent`: marker scan, then first
non-blank line with a leading glyph stripped, then the fixed placeholder. -/
def extractTitleWith (cfg : TitleCfg) (content : Str) : Str :=
  let lines := jsSplitChar '\n' content
  match markerTitleLoop cfg lines with
  | some t => t
  | none =>
    match lines.find? (fun line => (jsTrim line).length > 0) with
    | some line => stripLeadGlyph cfg (jsTrim line)
    | none => "Untitled Summary".toList

/-- Constants of `app/api/history/route.js`: markers `🎯 TITLE:`,
`🎯 TITEL:`, `🎙️ TITLE:`, `🎙️ TITEL:` and class `[🎯🎙️]` — whose code
points are 🎯, 🎙 and the variation selector U+FE0F. -/
def historyCfg : TitleCfg :=
  { markers := ["🎯 TITLE:".toList, "🎯 TITEL:".toList,
      "🎙️ TITLE:".toList, "🎙️ TITEL:".toList],
    glyphs := ['🎯', '🎙', '️'] }

/-- `extractTitleFromContent` of `app/api/history/route.js`. -/
def extractTitleFromContent (content : Str) : Str :=
  extractTitleWith historyCfg content

/-- Constants of `app/api/history/[id]/route.js`, which carries the same
markers in mojibake form: every marker begins with the invisible private-use
code point U+F8FF (bytes `EF A3 BF` in the source, the first byte group of
the mangled emoji) followed by `üéØ` respectively `üéôÔ∏è`, and the glyph
class of the fallback `replace` likewise contains U+F8FF together with the
mojibake letters. -/
def historyByIdCfg : TitleCfg :=
  { markers := ["\uF8FFüéØ TITLE:".toList, "\uF8FFüéØ TITEL:".toList,
      "\uF8FFüéôÔ∏è TITLE:".toList, "\uF8FFüéôÔ∏è TITEL:".toList],
    glyphs := ['\uF8FF', 'ü', 'é', 'Ø', 'ô', 'Ô', '∏', 'è'] }

/-- `extractTitleFromContent` of `app/api/history/[id]/route.js`. -/
def extractTitleFromContentById (content : Str) : Str :=
  extractTitleWith historyByIdCfg content

/-- Decidable side condition for the non-emptiness of the extracted title:
if a first non-blank line exists, stripping a leading glyph from its
trimmed form leaves something.  (The counterexample below shows the
condition is not vacuous.) -/
def fallbackKeepsText (cfg : TitleCfg) (content : Str) : Bool :=
  match (jsSplitChar '\n' content).find?
      (fun line => (jsTrim line).length > 0) with
  | some line => stripLeadGlyph cfg (jsTrim line) != []
  | none => true

lemma markerTitleLoop_ne_nil (cfg : TitleCfg) :
    ∀ (lines : List Str) (t : Str), markerTitleLoop cfg lines = some t →
      t ≠ [] := by
  intro lines
  induction lines with
  | nil => intro t ht; simp [markerTitleLoop] at ht
  | cons line rest ih =>
    intro t ht
    simp only [markerTitleLoop] at ht
    split at ht
    · split at ht
      case isTrue hne =>
        rcases Option.some_injective _ ht with rfl
        simpa using hne
      case isFalse => exact ih t ht
    · exact ih t ht

/-- The exact non-emptiness condition of the extracted title: some marker
line yields a non-empty value, or — when none does — the fallback path
keeps text (no non-blank line at all, in which case the placeholder is
returned, or a first non-blank line that survives glyph stripping). -/
def titleNonemptyCond (cfg : TitleCfg) (content : Str) : Bool :=
  match markerTitleLoop cfg (jsSplitChar '\n' content) with
  | some _ => true
  | none => fallbackKeepsText cfg content

lemma extractTitleWith_nonempty_iff (cfg : TitleCfg) (content : Str) :
    extractTitleWith cfg content ≠ [] ↔
      titleNonemptyCond cfg content = true := by
  unfold extractTitleWith titleNonemptyCond
  simp only []
  cases hm : markerTitleLoop cfg (jsSplitChar '\n' content) with
  | some t => exact iff_of_true (markerTitleLoop_ne_nil cfg _ t hm) rfl
  | none =>
    unfold fallbackKeepsText
    cases hf : (jsSplitChar '\n' content).find?
        (fun line => (jsTrim line).length > 0) with
    | some line => exact bne_iff_ne.symm
    | none =>
      refine iff_of_true ?_ rfl
      show ("Untitled Summary".toList : Str) ≠ []
      decide

/-- C10 (amended): in both history endpoints, `extractTitleFromContent`
returns a non-empty string exactly when some marker line yields a non-empty
value, or no marker line does and the fallback keeps text (either no
non-blank line exists — the fixed placeholder is returned — or the trimmed
first non-blank line survives the stripping of a leading marker glyph plus
following whitespace).  Equivalently, the result is empty exactly in the
one remaining case: no marker line yields a value and the trimmed first
non-blank line reduces to nothing when its leading glyph-class code point
and following whitespace are stripped — refuting the unqualified "always
non-empty" claim. -/
theorem extractTitle_nonempty :
    (∀ content : Str, extractTitleFromContent content ≠ [] ↔
      titleNonemptyCond historyCfg content = true) ∧
    (∀ content : Str, extractTitleFromContentById content ≠ [] ↔
      titleNonemptyCond historyByIdCfg content = true) :=
  ⟨fun content => extractTitleWith_nonempty_iff historyCfg content,
    fun content => extractTitleWith_nonempty_iff historyByIdCfg content⟩

/-- Witness for `extractTitle_nonempty` at concrete inputs: the first input
has a lone-glyph first line that strips to nothing followed by a valued
marker line, so the marker branch makes the result non-empty. -/
theorem extractTitle_nonempty_witness :
    (titleNonemptyCond historyCfg "️\n🎯 TITLE: Foo".toList = true ∧
      extractTitleFromContent "️\n🎯 TITLE: Foo".toList ≠ []) ∧
    (titleNonemptyCond historyByIdCfg "hello".toList = true ∧
      extractTitleFromContentById "hello".toList ≠ []) :=
  ⟨⟨by decide,
      (extractTitle_nonempty.1 "️\n🎯 TITLE: Foo".toList).mpr (by decide)⟩,
    ⟨by decide,
      (extractTitle_nonempty.2 "hello".toList).mpr (by decide)⟩⟩

/-- C10 counterexample: the input consisting of the single code point
U+FE0F (which the emoji marker class contains, because `🎙️` ends in a
variation selector) is a non-blank line that strips to nothing: the
function returns the empty string, not a non-empty title. -/
theorem extractTitle_nonempty_cex :
    extractTitleFromContent "️".toList = [] := by
  decide

/-!
## SummarizationPipeline — the `POST` handler (route.js lines 341-502)

The handler creates a `TransformStream`, spawns an async worker whose body is
a `try`/`catch`/`finally`, and returns the readable side.  The worker writes
newline-delimited JSON events through `writeProgress`; the `catch` converts
any raised error into one `error` event; the `finally` closes the writer (a
second close on the cache-hit path throws and is swallowed by `.catch`).

The worker is modelled as a function from an environment of collaborator
outcomes to a trace.  A trace records, in order: every event written to the
stream, every external action performed (database connect and queries,
transcript acquisition, provider invocations), and every successful close of
the writer.  `writeProgress` itself is modelled as always succeeding (the
consumer does not disconnect), and event payloads are modelled structurally
rather than as their JSON encodings.
-/

/-- Result of an awaited JavaScript call: a value, or a thrown error whose
`message` is carried. -/
inductive Res (α : Type) where
  | ok : α → Res α
  | err : Str → Res α
deriving DecidableEq

/-- The request body, as destructured on route.js line 352; `aiModel` is
`none` when the field is absent, in which case the destructuring default
`'gemini'` applies. -/
structure Req where
  url : Str
  language : Str
  mode : Str
  aiModel : Option Str
deriving DecidableEq

/-- A stored summary as the handler reads it back; an absent or empty
`source` field is modelled as the empty (falsy) string. -/
structure Stored where
  content : Str
  source : Str
deriving DecidableEq

/-- The result of `getTranscript`. -/
structure Acquired where
  transcript : Str
  source : Str
  title : Str
deriving DecidableEq

/-- Outcomes of every fallible collaborator the worker awaits, plus the
per-model credential map.  Provider network outcomes (`gen`) are indexed by
the occurrence number of the call within the run and by the prompt. -/
structure Env where
  reqJson : Res Req
  extractVideoId : Str → Res Str
  connectDb : Res Unit
  findCached : Res (Option Stored)
  getTranscriptR : Res Acquired
  hasKey : Str → Bool
  gen : Nat → Str → Res Str
  createSummaryPrompt : Str → Str → Str → Str
  find2 : Res (Option Stored)
  update : Res (Option Unit)
  insert : Res Unit

/-- Events written to the stream (`status`/`message` constants of the
`complete` events are fixed in the source and omitted). -/
inductive Ev where
  | progress (currentChunk totalChunks : Nat) (stage message : Str)
  | complete (summary source : Str) (warning : Option Str)
  | error (error details : Str)
deriving DecidableEq

/-- External actions the worker performs, in trace order. -/
inductive Act where
  | connectDb
  | findCached
  | acquireTranscript
  | providerCall (i : Nat)
  | saveFind
  | saveUpdate
  | saveInsert
deriving DecidableEq

/-- One trace entry: an event written, an action performed, or a successful
close of the writer. -/
inductive Item where
  | ev (e : Ev)
  | act (a : Act)
  | closeOk
deriving DecidableEq

/-- `MODEL_NAMES` (route.js lines 60-64), as an object lookup. -/
def MODEL_NAMES (m : Str) : Str :=
  if m = "gemini".toList then "Google Gemini".toList
  else if m = "groq".toList then "Groq".toList
  else if m = "gpt4".toList then "GPT-4".toList
  else []

/-- Whether `AI_MODELS[m]` exists (route.js line 357). -/
def validModel (m : Str) : Bool :=
  m = "gemini".toList ∨ m = "groq".toList ∨ m = "gpt4".toList

/-- The adapter's missing-credential message (route.js lines 106, 120,
143), identical for the three models up to the model name. -/
def notConfiguredMsg (m : Str) : Str :=
  MODEL_NAMES m ++ (" API key is not configured. Please add your API key " ++
    "in the settings or choose a different model.").toList

/-- Message of the invalid-model error (route.js line 358):
`Object.values(MODEL_NAMES).join(', ')` interpolated. -/
def invalidModelMsg : Str :=
  ("Invalid AI model selected. Please choose from: " ++
    "Google Gemini, Groq, GPT-4").toList

def fetchingMsg : Str := "Fetching video transcript...".toList

def processingMsg (i n : Nat) : Str :=
  "Processing section ".toList ++ (Nat.repr i).toList ++ " of ".toList ++
    (Nat.repr n).toList ++ "...".toList

def finalizingMsg : Str := "Creating final summary...".toList

def savingMsg : Str := "Saving summary to history...".toList

def warnSaveMsg : Str := "Failed to save to history".toList

def noContentMsg : Str := "No summary content generated".toList

def fallbackErrMsg : Str := "Failed to process video".toList

/-- `error?.toString()` for a thrown `Error`: the `Error: ` prefix plus the
message (never empty, so the `|| 'Unknown error'` fallback of line 488 can
not trigger for thrown `Error` objects). -/
def errDetails (e : Str) : Str := "Error: ".toList ++ e

/-- One call of `selectedModel.generateContent(prompt)` (route.js lines
103-158): the adapter obtains its client lazily, fails fast with the
not-configured message when the credential is absent, and otherwise routes
the raw model output through `cleanModelOutput`.  The returned trace records
that the adapter was invoked. -/
def generateContent (env : Env) (m : Str) (callIdx : Nat) (prompt : Str) :
    List Item × Res Str :=
  ([.act (.providerCall callIdx)],
    if env.hasKey m then
      match env.gen callIdx prompt with
      | .ok raw => .ok (cleanModelOutput raw)
      | .err e => .err e
    else .err (notConfiguredMsg m))

/-- The per-chunk prompt template (route.js lines 400-408), with its
template-literal indentation. -/
def chunkPrompt (language : Str) (i1 : Nat) (chunk : Str) : Str :=
  "Create a detailed summary of section ".toList ++ (Nat.repr i1).toList ++
  " in ".toList ++ language ++
  (".\n        Maintain all important information, arguments, and " ++
    "connections.\n        Pay special attention to:\n        " ++
    "- Main topics and arguments\n        " ++
    "- Important details and examples\n        " ++
    "- Connections with other mentioned topics\n        " ++
    "- Key statements and conclusions\n\n        Text: ").toList ++ chunk

/-- The `for (let i = 0; i < chunks.length; i++)` loop (route.js lines
391-412): for each chunk, first write the `processing` progress event, then
invoke the provider; a provider failure aborts the loop (and the run). -/
def processChunks (env : Env) (m language : Str) (total : Nat) :
    List Str → Nat → List Item × Res (List Str)
  | [], _ => ([], .ok [])
  | c :: rest, i =>
    let pEv : Item :=
      .ev (.progress (i + 1) total "processing".toList (processingMsg (i + 1) total))
    match generateContent env m i (chunkPrompt language (i + 1) c) with
    | (tr1, .err e) => (pEv :: tr1, .err e)
    | (tr1, .ok text) =>
      match processChunks env m language total rest (i + 1) with
      | (tr2, .err e) => (pEv :: (tr1 ++ tr2), .err e)
      | (tr2, .ok texts) => (pEv :: (tr1 ++ tr2), .ok (text :: texts))

/-- `intermediateSummaries.join('\n\n=== Next Section ===\n\n')`. -/
def sectionSep : Str := "\n\n=== Next Section ===\n\n".toList

def joinSections : List Str → Str
  | [] => []
  | [s] => s
  | s :: rest => s ++ sectionSep ++ joinSections rest

/-- The inner persistence `try`/`catch` (route.js lines 438-482): a second
`findOne`, then `findOneAndUpdate` (whose `.value` is the post-update
document — with `$set {content: summary, source: source || 'youtube'}` and
`returnDocument: 'after'` its emitted fields equal the generated ones — or
null when the document vanished, in which case the subsequent property
access throws inside the `try`) or `insertOne`.  Any error is caught
locally: the run still completes, carrying the in-memory summary and the
warning field.  The final `complete` event is written inside this block. -/
def saveBlock (env : Env) (summary source : Str) : List Item :=
  match env.find2 with
  | .err _ =>
    [.act .saveFind,
      .ev (.complete summary (jsOr source "youtube".toList) (some warnSaveMsg))]
  | .ok (some _) =>
    match env.update with
    | .err _ =>
      [.act .saveFind, .act .saveUpdate,
        .ev (.complete summary (jsOr source "youtube".toList) (some warnSaveMsg))]
    | .ok none =>
      [.act .saveFind, .act .saveUpdate,
        .ev (.complete summary (jsOr source "youtube".toList) (some warnSaveMsg))]
    | .ok (some _) =>
      [.act .saveFind, .act .saveUpdate,
        .ev (.complete summary (jsOr source "youtube".toList) none)]
  | .ok none =>
    match env.insert with
    | .err _ =>
      [.act .saveFind, .act .saveInsert,
        .ev (.complete summary (jsOr source "youtube".toList) (some warnSaveMsg))]
    | .ok _ =>
      [.act .saveFind, .act .saveInsert,
        .ev (.complete summary (jsOr source "youtube".toList) none)]

/-- How the `try` block of the worker ended: ran to completion, returned
early after closing the writer (cache hit), or raised. -/
inductive BodyExit where
  | finished
  | earlyClosed
  | raised (msg : Str)
deriving DecidableEq

/-- The `try` block of the worker (route.js lines 351-482), as a function
from the environment to the trace it produces and how it exits. -/
def postBody (env : Env) : List Item × BodyExit :=
  match env.reqJson with
  | .err e => ([], .raised e)
  | .ok req =>
    let aiModel := req.aiModel.getD "gemini".toList
    match env.extractVideoId req.url with
    | .err e => ([], .raised e)
    | .ok _videoId =>
      if ¬ validModel aiModel then ([], .raised invalidModelMsg)
      else
        match env.connectDb with
        | .err e => ([.act .connectDb], .raised e)
        | .ok _ =>
          match env.findCached with
          | .err e => ([.act .connectDb, .act .findCached], .raised e)
          | .ok (some existing) =>
            ([.act .connectDb, .act .findCached,
              .ev (.complete existing.content
                (jsOr existing.source "youtube".toList) none),
              .closeOk], .earlyClosed)
          | .ok none =>
            let tr0 : List Item := [.act .connectDb, .act .findCached,
              .ev (.progress 0 1 "analyzing".toList fetchingMsg),
              .act .acquireTranscript]
            match env.getTranscriptR with
            | .err e => (tr0, .raised e)
            | .ok acq =>
              let chunks := splitTranscriptIntoChunks acq.transcript
              let totalChunks := chunks.length
              let lp := processChunks env aiModel req.language totalChunks chunks 0
              match lp.2 with
              | .err e => (tr0 ++ lp.1, .raised e)
              | .ok sums =>
                let trF := tr0 ++ lp.1 ++
                  [.ev (.progress totalChunks totalChunks
                    "finalizing".toList finalizingMsg)]
                let fg := generateContent env aiModel totalChunks
                  (env.createSummaryPrompt (joinSections sums)
                    req.language req.mode)
                match fg.2 with
                | .err e => (trF ++ fg.1, .raised e)
                | .ok summary =>
                  if summary = [] then (trF ++ fg.1, .raised noContentMsg)
                  else
                    (trF ++ fg.1 ++
                      [.ev (.progress totalChunks totalChunks
                        "saving".toList savingMsg)] ++
                      saveBlock env summary acq.source, .finished)

/-- The whole worker: `try` body, `catch` writing the single `error` event
(`error?.message || 'Failed to process video'`, detail `error.toString()`),
`finally` closing the writer.  On the cache-hit path the writer is already
closed, so the close in `finally` throws and is swallowed by its `.catch`:
no second successful close is recorded. -/
def runPOST (env : Env) : List Item :=
  match postBody env with
  | (tr, .finished) => tr ++ [.closeOk]
  | (tr, .earlyClosed) => tr
  | (tr, .raised e) =>
    tr ++ [.ev (.error (jsOr e fallbackErrMsg) (errDetails e)), .closeOk]

def isTerminal : Ev → Bool
  | .complete _ _ _ => true
  | .error _ _ => true
  | .progress _ _ _ _ => false

/-- A trace fragment containing no terminal event and no close. -/
def NoTermNoClose (tr : List Item) : Prop :=
  (∀ e : Ev, Item.ev e ∈ tr → isTerminal e = false) ∧ Item.closeOk ∉ tr

/-- A full run trace in good shape: some non-terminal prefix, then exactly
one terminal event, then exactly one successful close, and nothing after. -/
def CleanRun (l : List Item) : Prop :=
  ∃ pre t, l = pre ++ [Item.ev t, Item.closeOk] ∧ isTerminal t = true ∧
    NoTermNoClose pre

lemma ntnc_nil : NoTermNoClose [] := by
  constructor <;> simp

lemma ntnc_append {a b : List Item} (ha : NoTermNoClose a)
    (hb : NoTermNoClose b) : NoTermNoClose (a ++ b) := by
  refine ⟨?_, ?_⟩
  · intro e he
    rcases List.mem_append.mp he with h | h
    · exact ha.1 e h
    · exact hb.1 e h
  · intro hc
    rcases List.mem_append.mp hc with h | h
    · exact ha.2 h
    · exact hb.2 h

lemma ntnc_cons_ev {e : Ev} (he : isTerminal e = false) {tr : List Item}
    (h : NoTermNoClose tr) : NoTermNoClose (Item.ev e :: tr) := by
  refine ⟨?_, ?_⟩
  · intro e' he'
    rcases List.mem_cons.mp he' with h' | h'
    · rw [Item.ev.inj h']
      exact he
    · exact h.1 e' h'
  · intro hc
    rcases List.mem_cons.mp hc with h' | h'
    · cases h'
    · exact h.2 h'

lemma ntnc_cons_progress {a b : Nat} {c d : Str} {tr : List Item}
    (h : NoTermNoClose tr) :
    NoTermNoClose (Item.ev (.progress a b c d) :: tr) := by
  refine ntnc_cons_ev ?_ h
  rfl

lemma ntnc_cons_act {a : Act} {tr : List Item} (h : NoTermNoClose tr) :
    NoTermNoClose (Item.act a :: tr) := by
  refine ⟨?_, ?_⟩
  · intro e' he'
    rcases List.mem_cons.mp he' with h' | h'
    · cases h'
    · exact h.1 e' h'
  · intro hc
    rcases List.mem_cons.mp hc with h' | h'
    · cases h'
    · exact h.2 h'

/-- The chunk loop emits progress events and provider actions only:
no terminal event, no close — whatever the outcome. -/
lemma processChunks_ntnc (env : Env) (m language : Str) (total : Nat) :
    ∀ (chunks : List Str) (i : Nat),
      NoTermNoClose (processChunks env m language total chunks i).1 := by
  intro chunks
  induction chunks with
  | nil => intro i; exact ntnc_nil
  | cons c rest ih =>
    intro i
    have hfst : (generateContent env m i (chunkPrompt language (i + 1) c)).1 =
        [Item.act (.providerCall i)] := rfl
    simp only [processChunks]
    rcases hg : generateContent env m i (chunkPrompt language (i + 1) c)
      with ⟨tr1, r1⟩
    rw [hg] at hfst
    simp only at hfst
    subst hfst
    cases r1 with
    | err e => exact ntnc_cons_progress (ntnc_cons_act ntnc_nil)
    | ok text =>
      have h2 := ih (i + 1)
      rcases hp : processChunks env m language total rest (i + 1) with ⟨tr2, r2⟩
      rw [hp] at h2
      cases r2 <;>
        exact ntnc_cons_progress (ntnc_append (ntnc_cons_act ntnc_nil) h2)

/-- The persistence block always ends with one `complete` event, preceded
only by actions. -/
lemma saveBlock_shape (env : Env) (summary source : Str) :
    ∃ pre t, saveBlock env summary source = pre ++ [Item.ev t] ∧
      isTerminal t = true ∧ NoTermNoClose pre := by
  unfold saveBlock
  cases env.find2 with
  | err e => exact ⟨[.act .saveFind], _, rfl, rfl, ntnc_cons_act ntnc_nil⟩
  | ok st =>
    cases st with
    | none =>
      cases env.insert with
      | err e => exact ⟨[.act .saveFind, .act .saveInsert], _, rfl, rfl,
          ntnc_cons_act (ntnc_cons_act ntnc_nil)⟩
      | ok u => exact ⟨[.act .saveFind, .act .saveInsert], _, rfl, rfl,
          ntnc_cons_act (ntnc_cons_act ntnc_nil)⟩
    | some st2 =>
      cases env.update with
      | err e => exact ⟨[.act .saveFind, .act .saveUpdate], _, rfl, rfl,
          ntnc_cons_act (ntnc_cons_act ntnc_nil)⟩
      | ok u =>
        cases u with
        | none => exact ⟨[.act .saveFind, .act .saveUpdate], _, rfl, rfl,
            ntnc_cons_act (ntnc_cons_act ntnc_nil)⟩
        | some u2 => exact ⟨[.act .saveFind, .act .saveUpdate], _, rfl, rfl,
            ntnc_cons_act (ntnc_cons_act ntnc_nil)⟩

/-- Classification of the `try` body's trace by its exit. -/
def BodyOK : List Item × BodyExit → Prop
  | (tr, .raised _) => NoTermNoClose tr
  | (tr, .finished) =>
    ∃ pre t, tr = pre ++ [Item.ev t] ∧ isTerminal t = true ∧ NoTermNoClose pre
  | (tr, .earlyClosed) => CleanRun tr

lemma bodyOK_raised {tr : List Item} {e : Str} (h : NoTermNoClose tr) :
    BodyOK (tr, .raised e) := h

lemma bodyOK_finished {tr : List Item}
    (h : ∃ pre t, tr = pre ++ [Item.ev t] ∧ isTerminal t = true ∧
      NoTermNoClose pre) : BodyOK (tr, .finished) := h

lemma bodyOK_early {tr : List Item} (h : CleanRun tr) :
    BodyOK (tr, .earlyClosed) := h

lemma finished_shape {X pre sb : List Item} {t : Ev}
    (hsb : sb = pre ++ [Item.ev t]) (hterm : isTerminal t = true)
    (hX : NoTermNoClose X) (hpre : NoTermNoClose pre) :
    ∃ pre' t', X ++ sb = pre' ++ [Item.ev t'] ∧ isTerminal t' = true ∧
      NoTermNoClose pre' := by
  refine ⟨X ++ pre, t, ?_, hterm, ntnc_append hX hpre⟩
  rw [hsb]
  exact (List.append_assoc X pre _).symm

lemma ntnc_tr0 : NoTermNoClose [Item.act .connectDb, Item.act .findCached,
    Item.ev (.progress 0 1 "analyzing".toList fetchingMsg),
    Item.act .acquireTranscript] :=
  ntnc_cons_act (ntnc_cons_act (ntnc_cons_progress (ntnc_cons_act ntnc_nil)))

lemma postBody_ok (env : Env) : BodyOK (postBody env) := by
  unfold postBody
  cases env.reqJson with
  | err e => exact ntnc_nil
  | ok req =>
  simp only []
  cases env.extractVideoId req.url with
  | err e => exact ntnc_nil
  | ok vid =>
  cases hv : validModel (req.aiModel.getD "gemini".toList) with
  | false =>
    rw [if_pos (by simp : ¬ false = true)]
    exact ntnc_nil
  | true =>
    rw [if_neg (by simp : ¬ ¬ true = true)]
    cases env.connectDb with
    | err e => exact ntnc_cons_act ntnc_nil
    | ok u =>
    cases env.findCached with
    | err e => exact ntnc_cons_act (ntnc_cons_act ntnc_nil)
    | ok st =>
    cases st with
    | some st =>
      -- cache hit
      exact ⟨[Item.act .connectDb, Item.act .findCached], _, rfl, rfl,
        ntnc_cons_act (ntnc_cons_act ntnc_nil)⟩
    | none =>
    cases env.getTranscriptR with
    | err e => exact ntnc_tr0
    | ok acq =>
    simp only []
    have hl := processChunks_ntnc env
      (req.aiModel.getD "gemini".toList) req.language
      (splitTranscriptIntoChunks acq.transcript).length
      (splitTranscriptIntoChunks acq.transcript) 0
    cases hlp : (processChunks env (req.aiModel.getD "gemini".toList)
        req.language
        (splitTranscriptIntoChunks acq.transcript).length
        (splitTranscriptIntoChunks acq.transcript) 0).2 with
    | err e => exact ntnc_append ntnc_tr0 hl
    | ok sums =>
    simp only []
    cases hfg : (generateContent env
        (req.aiModel.getD "gemini".toList)
        (splitTranscriptIntoChunks acq.transcript).length
        (env.createSummaryPrompt (joinSections sums)
          req.language req.mode)).2 with
    | err e =>
      refine ntnc_append (ntnc_append (ntnc_append ntnc_tr0 hl)
        (ntnc_cons_progress ntnc_nil)) ?_
      exact ntnc_cons_act ntnc_nil
    | ok summary =>
    simp only []
    by_cases hs : summary = []
    · rw [if_pos hs]
      refine bodyOK_raised (ntnc_append (ntnc_append (ntnc_append ntnc_tr0 hl)
        (ntnc_cons_progress ntnc_nil)) ?_)
      exact ntnc_cons_act ntnc_nil
    · rw [if_neg hs]
      refine bodyOK_finished ?_
      obtain ⟨pre, t, hsb, hterm, hpre⟩ :=
        saveBlock_shape env summary acq.source
      exact finished_shape hsb hterm
        (ntnc_append (ntnc_append (ntnc_append (ntnc_append ntnc_tr0 hl)
          (ntnc_cons_progress ntnc_nil)) (ntnc_cons_act ntnc_nil))
          (ntnc_cons_progress ntnc_nil)) hpre

/-- C1: for every environment — that is, on every exit path: success, an
error raised at any stage, cache hit, or persistence degradation — the
trace of the worker consists of a prefix free of terminal events and of
closes, followed by exactly one terminal event (`complete` or `error`) and
then exactly one successful close of the stream. -/
theorem post_single_terminal_and_close (env : Env) : CleanRun (runPOST env) := by
  have hb := postBody_ok env
  unfold runPOST
  rcases hpb : postBody env with ⟨tr, ex⟩
  rw [hpb] at hb
  cases ex with
  | finished =>
    show CleanRun (tr ++ [Item.closeOk])
    obtain ⟨pre, t, htr, hterm, hpre⟩ := hb
    refine ⟨pre, t, ?_, hterm, hpre⟩
    rw [htr]
    exact (List.append_assoc pre [Item.ev t] [Item.closeOk]).symm.symm
  | earlyClosed =>
    show CleanRun tr
    exact hb
  | raised e =>
    show CleanRun (tr ++
      [Item.ev (.error (jsOr e fallbackErrMsg) (errDetails e)), Item.closeOk])
    exact ⟨tr, .error (jsOr e fallbackErrMsg) (errDetails e), rfl, rfl, hb⟩

/-- C3: on a cache hit — a stored summary exists for (videoId, language) —
the run's whole trace is: connect, the cache query, one `complete` event
carrying the stored content and stored source, and the close.  In
particular no transcript acquisition, no provider invocation, and no
further persistence work occurs.  (The hypothesis that the stored source is
non-empty reflects that `existingSummary.source || 'youtube'` substitutes
`youtube` for an absent source field.) -/
theorem post_cache_hit (env : Env) (req : Req) (vid : Str) (st : Stored)
    (hreq : env.reqJson = .ok req)
    (hvid : env.extractVideoId req.url = .ok vid)
    (hmodel : validModel (req.aiModel.getD "gemini".toList) = true)
    (hdb : env.connectDb = .ok ())
    (hcache : env.findCached = .ok (some st))
    (hsrc : st.source ≠ []) :
    runPOST env = [.act .connectDb, .act .findCached,
      .ev (.complete st.content st.source none), .closeOk] := by
  have hm' := hmodel
  simp only [String.toList] at hm'
  simp [runPOST, postBody, hreq, hvid, hdb, hcache, jsOr, hsrc, hm']

/-- Concrete environment witnessing a cache hit. -/
def reqC3 : Req :=
  ⟨"https://youtu.be/abc123".toList, "en".toList, "video".toList,
    some "gemini".toList⟩

def stC3 : Stored := ⟨"Cached summary".toList, "youtube".toList⟩

def envC3 : Env :=
  { reqJson := .ok reqC3
    extractVideoId := fun _ => .ok "abc123".toList
    connectDb := .ok ()
    findCached := .ok (some stC3)
    getTranscriptR := .err "not reached".toList
    hasKey := fun _ => false
    gen := fun _ _ => .err "not reached".toList
    createSummaryPrompt := fun a _ _ => a
    find2 := .ok none
    update := .ok none
    insert := .ok () }

/-- Witness for `post_cache_hit` at a concrete environment. -/
theorem post_cache_hit_witness :
    (envC3.findCached = .ok (some stC3) ∧ stC3.source ≠ []) ∧
    runPOST envC3 = [.act .connectDb, .act .findCached,
      .ev (.complete stC3.content stC3.source none), .closeOk] :=
  ⟨⟨rfl, by decide⟩,
    post_cache_hit envC3 reqC3 "abc123".toList stC3 rfl rfl (by decide)
      rfl rfl (by decide)⟩

lemma chunkLoopW_ne_nil (cs ov : Nat) :
    ∀ (words chunks cur : List Str) (len : Nat),
      (chunks ≠ [] ∨ cur ≠ [] ∨ words ≠ []) →
      chunkLoopW cs ov words chunks cur len ≠ [] := by
  intro words
  induction words with
  | nil =>
    intro chunks cur len h
    simp only [chunkLoopW]
    split
    · simp
    next hcur =>
      have hcurnil : cur = [] := by
        cases cur with
        | nil => rfl
        | cons a l => simp at hcur
      rcases h with h | h | h
      · exact h
      · exact absurd hcurnil h
      · exact absurd rfl h
  | cons w rest ih =>
    intro chunks cur len h
    simp only [chunkLoopW]
    split
    · exact ih _ _ _ (Or.inr (Or.inl (by simp)))
    · exact ih _ _ _ (Or.inr (Or.inl (by simp)))

/-- The splitter never returns the empty sequence: the word list of any
input is non-empty, so the loop always closes at least one chunk. -/
lemma splitTranscriptIntoChunks_ne_nil (t : Str) (cs ov : Nat) :
    splitTranscriptIntoChunks t cs ov ≠ [] :=
  chunkLoopW_ne_nil cs ov _ [] [] 0 (Or.inr (Or.inr (jsSplitSpace_ne_nil t)))

lemma notConfiguredMsg_ne_nil (m : Str) : notConfiguredMsg m ≠ [] := by
  simp [notConfiguredMsg]

/-- C5 (amended): a run that names a recognized provider whose credential is
absent ends with an `error` event whose message names that provider and
suggests choosing a different model — but the error is raised inside the
adapter at the first provider invocation, which happens only after
transcript acquisition (the trace below contains the acquisition action
before the error event); it is not emitted before acquisition as the claim
states. -/
theorem post_missing_key (env : Env) (req : Req) (vid t src ttl m : Str)
    (hreq : env.reqJson = .ok req)
    (hm : req.aiModel = some m)
    (hvalid : validModel m = true)
    (hvid : env.extractVideoId req.url = .ok vid)
    (hdb : env.connectDb = .ok ())
    (hcache : env.findCached = .ok none)
    (hacq : env.getTranscriptR = .ok ⟨t, src, ttl⟩)
    (hkey : env.hasKey m = false) :
    runPOST env = [.act .connectDb, .act .findCached,
      .ev (.progress 0 1 "analyzing".toList fetchingMsg),
      .act .acquireTranscript,
      .ev (.progress 1 (splitTranscriptIntoChunks t).length
        "processing".toList
        (processingMsg 1 (splitTranscriptIntoChunks t).length)),
      .act (.providerCall 0),
      .ev (.error (notConfiguredMsg m) (errDetails (notConfiguredMsg m))),
      .closeOk] := by
  obtain ⟨c, rest, hch⟩ : ∃ c rest, splitTranscriptIntoChunks t = c :: rest := by
    cases hsp : splitTranscriptIntoChunks t with
    | nil => exact absurd hsp (splitTranscriptIntoChunks_ne_nil t 7000 1000)
    | cons c rest => exact ⟨c, rest, rfl⟩
  simp [runPOST, postBody, hreq, hm, hvalid, hvid, hdb, hcache, hacq, hch,
    processChunks, generateContent, hkey, jsOr, notConfiguredMsg_ne_nil m]

/-- Concrete environment for the C5 counterexample: gemini requested, no
gemini key, a cache miss, and acquisition succeeding with a short
transcript. -/
def reqC5 : Req :=
  ⟨"https://youtu.be/abc".toList, "en".toList, "video".toList,
    some "gemini".toList⟩

def envC5 : Env :=
  { reqJson := .ok reqC5
    extractVideoId := fun _ => .ok "abc".toList
    connectDb := .ok ()
    findCached := .ok none
    getTranscriptR := .ok ⟨"hi".toList, "youtube".toList, "T".toList⟩
    hasKey := fun _ => false
    gen := fun _ _ => .err "unreachable".toList
    createSummaryPrompt := fun a _ _ => a
    find2 := .ok none
    update := .ok none
    insert := .ok () }

/-- C5 counterexample: in the concrete missing-credential run the trace
contains the transcript-acquisition action at index 3 and the
not-configured `error` event only at index 6 — the error event carrying the
provider name is emitted after transcript acquisition was attempted, not
before, refuting the claim's ordering. -/
theorem post_missing_key_cex :
    runPOST envC5 = [.act .connectDb, .act .findCached,
      .ev (.progress 0 1 "analyzing".toList fetchingMsg),
      .act .acquireTranscript,
      .ev (.progress 1 1 "processing".toList (processingMsg 1 1)),
      .act (.providerCall 0),
      .ev (.error (notConfiguredMsg "gemini".toList)
        (errDetails (notConfiguredMsg "gemini".toList))),
      .closeOk] ∧
    (runPOST envC5).get? 3 = some (.act .acquireTranscript) ∧
    (runPOST envC5).get? 6 =
      some (.ev (.error (notConfiguredMsg "gemini".toList)
        (errDetails (notConfiguredMsg "gemini".toList)))) ∧
    ((runPOST envC5).take 6).all
      (fun it => match it with
        | .ev (.error _ _) => false
        | _ => true) = true := by
  refine ⟨by decide, by decide, by decide, by decide⟩

/-- Witness for `post_missing_key` at the concrete environment. -/
theorem post_missing_key_witness :
    (envC5.hasKey "gemini".toList = false ∧ envC5.findCached = .ok none) ∧
    runPOST envC5 = [.act .connectDb, .act .findCached,
      .ev (.progress 0 1 "analyzing".toList fetchingMsg),
      .act .acquireTranscript,
      .ev (.progress 1 (splitTranscriptIntoChunks "hi".toList).length
        "processing".toList
        (processingMsg 1 (splitTranscriptIntoChunks "hi".toList).length)),
      .act (.providerCall 0),
      .ev (.error (notConfiguredMsg "gemini".toList)
        (errDetails (notConfiguredMsg "gemini".toList))),
      .closeOk] :=
  ⟨⟨rfl, rfl⟩,
    post_missing_key envC5 reqC5 "abc".toList "hi".toList "youtube".toList
      "T".toList "gemini".toList rfl rfl (by decide) rfl rfl rfl rfl rfl⟩

/-- The events of a trace in order, without the actions and closes. -/
def eventsOf (tr : List Item) : List Ev :=
  tr.filterMap (fun it => match it with | .ev e => some e | _ => none)

/-- C4: when the persistence step fails after the final summary was
generated — the inner `findOne` throws, or `findOneAndUpdate` throws or
returns no document, or `insertOne` throws — the terminal event is still
`complete`, it carries the warning field, and the summary it carries is the
generated (unsaved) text `cleanModelOutput rawF`. -/
theorem post_save_failure_degrades (env : Env) (req : Req)
    (vid t src ttl m rawF : Str) (ltr : List Item) (sums : List Str)
    (hreq : env.reqJson = .ok req)
    (hm : req.aiModel = some m)
    (hvalid : validModel m = true)
    (hvid : env.extractVideoId req.url = .ok vid)
    (hdb : env.connectDb = .ok ())
    (hcache : env.findCached = .ok none)
    (hacq : env.getTranscriptR = .ok ⟨t, src, ttl⟩)
    (hloop : processChunks env m req.language
      (splitTranscriptIntoChunks t).length
      (splitTranscriptIntoChunks t) 0 = (ltr, .ok sums))
    (hkey : env.hasKey m = true)
    (hfinal : env.gen (splitTranscriptIntoChunks t).length
      (env.createSummaryPrompt (joinSections sums) req.language req.mode) =
      .ok rawF)
    (hne : cleanModelOutput rawF ≠ [])
    (hsave : (∃ e, env.find2 = .err e) ∨
      ((∃ st2, env.find2 = .ok (some st2)) ∧
        ((∃ e, env.update = .err e) ∨ env.update = .ok none)) ∨
      (env.find2 = .ok none ∧ ∃ e, env.insert = .err e)) :
    eventsOf (runPOST env) =
      .progress 0 1 "analyzing".toList fetchingMsg ::
      (eventsOf ltr ++
        [.progress (splitTranscriptIntoChunks t).length
            (splitTranscriptIntoChunks t).length
            "finalizing".toList finalizingMsg,
          .progress (splitTranscriptIntoChunks t).length
            (splitTranscriptIntoChunks t).length
            "saving".toList savingMsg,
          .complete (cleanModelOutput rawF) (jsOr src "youtube".toList)
            (some warnSaveMsg)]) := by
  rcases hsave with ⟨e, hf2⟩ | ⟨⟨st2, hf2⟩, hupd | hupd⟩ | ⟨hf2, e, hins⟩
  · simp [runPOST, postBody, hreq, hm, hvalid, hvid, hdb, hcache, hacq,
      hloop, generateContent, hkey, hfinal, hne, saveBlock, hf2, eventsOf]
  · obtain ⟨e, hupd⟩ := hupd
    simp [runPOST, postBody, hreq, hm, hvalid, hvid, hdb, hcache, hacq,
      hloop, generateContent, hkey, hfinal, hne, saveBlock, hf2, hupd,
      eventsOf]
  · simp [runPOST, postBody, hreq, hm, hvalid, hvid, hdb, hcache, hacq,
      hloop, generateContent, hkey, hfinal, hne, saveBlock, hf2, hupd,
      eventsOf]
  · simp [runPOST, postBody, hreq, hm, hvalid, hvid, hdb, hcache, hacq,
      hloop, generateContent, hkey, hfinal, hne, saveBlock, hf2, hins,
      eventsOf]

/-- Concrete environment for the C4 witness: one chunk, generation
succeeding, `insertOne` failing. -/
def reqC4 : Req :=
  ⟨"https://youtu.be/xyz".toList, "en".toList, "video".toList,
    some "gemini".toList⟩

def envC4 : Env :=
  { reqJson := .ok reqC4
    extractVideoId := fun _ => .ok "xyz".toList
    connectDb := .ok ()
    findCached := .ok none
    getTranscriptR := .ok ⟨"hi".toList, "whisper".toList, "T".toList⟩
    hasKey := fun m => m == "gemini".toList
    gen := fun _ _ => .ok "S".toList
    createSummaryPrompt := fun a _ _ => a
    find2 := .ok none
    update := .ok none
    insert := .err "db down".toList }

/-- Witness for `post_save_failure_degrades` at the concrete environment. -/
theorem post_save_failure_degrades_witness :
    (envC4.insert = .err "db down".toList ∧
      cleanModelOutput "S".toList ≠ [] ∧
      processChunks envC4 "gemini".toList "en".toList
        (splitTranscriptIntoChunks "hi".toList).length
        (splitTranscriptIntoChunks "hi".toList) 0 =
        ([.ev (.progress 1 1 "processing".toList (processingMsg 1 1)),
          .act (.providerCall 0)], .ok ["S".toList])) ∧
    eventsOf (runPOST envC4) =
      .progress 0 1 "analyzing".toList fetchingMsg ::
      (eventsOf [Item.ev (.progress 1 1 "processing".toList
          (processingMsg 1 1)), Item.act (.providerCall 0)] ++
        [.progress (splitTranscriptIntoChunks "hi".toList).length
            (splitTranscriptIntoChunks "hi".toList).length
            "finalizing".toList finalizingMsg,
          .progress (splitTranscriptIntoChunks "hi".toList).length
            (splitTranscriptIntoChunks "hi".toList).length
            "saving".toList savingMsg,
          .complete (cleanModelOutput "S".toList)
            (jsOr "whisper".toList "youtube".toList) (some warnSaveMsg)]) :=
  ⟨⟨rfl, by decide, by decide⟩,
    post_save_failure_degrades envC4 reqC4 "xyz".toList "hi".toList
      "whisper".toList "T".toList "gemini".toList "S".toList
      [.ev (.progress 1 1 "processing".toList (processingMsg 1 1)),
        .act (.providerCall 0)] ["S".toList]
      rfl rfl (by decide) rfl rfl rfl rfl (by decide) (by decide) rfl
      (by decide)
      (Or.inr (Or.inr ⟨rfl, "db down".toList, rfl⟩))⟩

/-- C6: for a successful run whose transcript splits into three chunks, the
whole trace is fixed: the `progress` events carry `currentChunk` values
0, 1, 2, 3, 3, 3 (analyzing with the initial placeholder `totalChunks` of
1, then one per chunk, then finalizing and saving with `totalChunks`
constant at 3 from the first chunk-processing event onward), each per-chunk
progress event immediately precedes the provider invocation for that chunk,
and the progress events are followed by exactly one terminal `complete` and
the close. -/
theorem post_three_chunk_trace (env : Env) (req : Req)
    (vid t src ttl c1 c2 c3 : Str) (raws : Nat → Str)
    (hreq : env.reqJson = .ok req)
    (hm : req.aiModel = some "gemini".toList)
    (hvid : env.extractVideoId req.url = .ok vid)
    (hdb : env.connectDb = .ok ())
    (hcache : env.findCached = .ok none)
    (hacq : env.getTranscriptR = .ok ⟨t, src, ttl⟩)
    (hsplit : splitTranscriptIntoChunks t = [c1, c2, c3])
    (hkey : env.hasKey "gemini".toList = true)
    (hgen : ∀ i p, env.gen i p = .ok (raws i))
    (hne : cleanModelOutput (raws 3) ≠ [])
    (hfind2 : env.find2 = .ok none)
    (hins : env.insert = .ok ()) :
    runPOST env = [.act .connectDb, .act .findCached,
      .ev (.progress 0 1 "analyzing".toList fetchingMsg),
      .act .acquireTranscript,
      .ev (.progress 1 3 "processing".toList (processingMsg 1 3)),
      .act (.providerCall 0),
      .ev (.progress 2 3 "processing".toList (processingMsg 2 3)),
      .act (.providerCall 1),
      .ev (.progress 3 3 "processing".toList (processingMsg 3 3)),
      .act (.providerCall 2),
      .ev (.progress 3 3 "finalizing".toList finalizingMsg),
      .act (.providerCall 3),
      .ev (.progress 3 3 "saving".toList savingMsg),
      .act .saveFind, .act .saveInsert,
      .ev (.complete (cleanModelOutput (raws 3)) (jsOr src "youtube".toList)
        none),
      .closeOk] := by
  have hkey' := hkey
  simp only [String.toList] at hkey'
  have hvm : validModel "gemini".toList = true := by decide
  simp only [String.toList] at hvm
  simp [runPOST, postBody, hreq, hm, hvid, hdb, hcache, hacq, hsplit,
    processChunks, generateContent, hkey', hvm, hgen, hne, saveBlock,
    hfind2, hins]

/-- The three-word 6999-characters-each transcript whose default-parameter
split has exactly three chunks (the second and third chunks carry the full
100-word overlap seed, here the whole previous chunk). -/
def w6 : Str := List.replicate 6999 'x'

def t6 : Str := w6 ++ ' ' :: (w6 ++ ' ' :: w6)

lemma w6_no_space : ' ' ∉ w6 := by
  rw [w6]
  intro hmem
  exact absurd (List.eq_of_mem_replicate hmem) (by decide)

lemma t6_words : jsSplitSpace t6 = [w6, w6, w6] := by
  rw [t6, jsSplitSpace_append_space _ _ w6_no_space,
    jsSplitSpace_append_space _ _ w6_no_space,
    jsSplitSpace_no_space _ w6_no_space]

lemma w6_length : w6.length = 6999 := by
  rw [w6]
  exact List.length_replicate 6999 'x'

/-- Default-parameter split of the three-word transcript: three chunks,
each seeded with the whole previous chunk as overlap. -/
lemma t6_chunks : splitTranscriptIntoChunks t6 =
    [w6, w6 ++ ' ' :: w6, w6 ++ ' ' :: (w6 ++ ' ' :: w6)] := by
  unfold splitTranscriptIntoChunks
  rw [t6_words]
  simp [chunkLoopW, jsSliceNeg, joinSp, w6_length]

/-- Concrete environment for the C6 witness: a three-chunk transcript and a
fully successful run. -/
def reqC6 : Req :=
  ⟨"https://youtu.be/abc".toList, "en".toList, "video".toList,
    some "gemini".toList⟩

def envC6 : Env :=
  { reqJson := .ok reqC6
    extractVideoId := fun _ => .ok "abc".toList
    connectDb := .ok ()
    findCached := .ok none
    getTranscriptR := .ok ⟨t6, "youtube".toList, "Title".toList⟩
    hasKey := fun m => m == "gemini".toList
    gen := fun _ _ => .ok "S".toList
    createSummaryPrompt := fun a _ _ => a
    find2 := .ok none
    update := .ok none
    insert := .ok () }

/-- Witness for `post_three_chunk_trace` at the concrete environment. -/
theorem post_three_chunk_trace_witness :
    (splitTranscriptIntoChunks t6 =
        [w6, w6 ++ ' ' :: w6, w6 ++ ' ' :: (w6 ++ ' ' :: w6)] ∧
      cleanModelOutput "S".toList ≠ []) ∧
    runPOST envC6 = [.act .connectDb, .act .findCached,
      .ev (.progress 0 1 "analyzing".toList fetchingMsg),
      .act .acquireTranscript,
      .ev (.progress 1 3 "processing".toList (processingMsg 1 3)),
      .act (.providerCall 0),
      .ev (.progress 2 3 "processing".toList (processingMsg 2 3)),
      .act (.providerCall 1),
      .ev (.progress 3 3 "processing".toList (processingMsg 3 3)),
      .act (.providerCall 2),
      .ev (.progress 3 3 "finalizing".toList finalizingMsg),
      .act (.providerCall 3),
      .ev (.progress 3 3 "saving".toList savingMsg),
      .act .saveFind, .act .saveInsert,
      .ev (.complete (cleanModelOutput "S".toList)
        (jsOr "youtube".toList "youtube".toList) none),
      .closeOk] :=
  ⟨⟨t6_chunks, by decide⟩,
    post_three_chunk_trace envC6 reqC6 "abc".toList t6 "youtube".toList
      "Title".toList w6 (w6 ++ ' ' :: w6) (w6 ++ ' ' :: (w6 ++ ' ' :: w6))
      (fun _ => "S".toList)
      rfl rfl rfl rfl rfl rfl t6_chunks rfl (fun _ _ => rfl) (by decide)
      rfl rfl⟩

/-!
## Audio fallback — `downloadAudio` / `transcribeWithWhisper` (route.js
lines 186-284)

`downloadAudio` writes `/tmp/<id>_temp.mp3` (the write stream creates the
file on open) and transcodes it to `/tmp/<id>.flac`; on success it deletes
the temp MP3 and returns the FLAC path, which `transcribeWithWhisper`
deletes in its `finally`.  The `catch` block of `downloadAudio` is:

```js
if (await fs.exists(tempPath)) await fs.unlink(tempPath).catch(...);
if (await fs.exists(outputPath)) await fs.unlink(outputPath).catch(...);
throw error;
```

where `fs` is `require('fs').promises`.  Node's `fs.promises` API exposes
`access`/`stat` but no `exists`; `fs.exists` is `undefined`, so the first
`await fs.exists(tempPath)` throws a TypeError before any unlink can run:
on every failure path that reaches the catch, no cleanup is performed and
the TypeError replaces the original error.  The model below records the
file-system operations performed and reflects this behaviour of the catch
block. -/

/-- The two intermediate artifacts of the audio fallback. -/
inductive AudioFile where
  | tempMp3
  | outputFlac
deriving DecidableEq

/-- A file-system operation performed by the audio pipeline. -/
inductive FsOp where
  | create (f : AudioFile)
  | unlink (f : AudioFile)
deriving DecidableEq

/-- Outcomes of the fallible steps of `downloadAudio`. -/
structure AudioEnv where
  getInfo : Res Unit
  formatFound : Bool
  download : Res Unit
  tempSize : Nat
  ffmpeg : Res Unit
  outSize : Nat

/-- The `catch` block of `downloadAudio`: its first statement calls the
non-existent `fs.promises.exists`, which throws a TypeError, so neither
conditional unlink runs and the TypeError propagates in place of the
original error. -/
def downloadAudioCatch (ops : List FsOp) : List FsOp × Res Unit :=
  (ops, .err "TypeError: fs.exists is not a function".toList)

/-- `downloadAudio` (route.js lines 186-257): the returned operation list
records which files were created and deleted.  (A failing ffmpeg run is
modelled as not having produced the FLAC; the leaked temp MP3 is what the
theorem below exhibits.) -/
def downloadAudio (env : AudioEnv) : List FsOp × Res Unit :=
  match env.getInfo with
  | .err _ => downloadAudioCatch []
  | .ok _ =>
    if ¬ env.formatFound then downloadAudioCatch []
    else
      match env.download with
      | .err _ => downloadAudioCatch [.create .tempMp3]
      | .ok _ =>
        if env.tempSize = 0 then downloadAudioCatch [.create .tempMp3]
        else
          match env.ffmpeg with
          | .err _ => downloadAudioCatch [.create .tempMp3]
          | .ok _ =>
            if env.outSize = 0 then
              downloadAudioCatch [.create .tempMp3, .create .outputFlac]
            else
              ([.create .tempMp3, .create .outputFlac, .unlink .tempMp3],
                .ok ())

/-- Outcomes of the fallible steps of `transcribeWithWhisper`. -/
structure WhisperEnv where
  stat : Res Unit
  keyPresent : Bool
  readFile : Res Unit
  transcribe : Res Str

/-- `transcribeWithWhisper` (route.js lines 259-284): the `finally` block
unlinks the audio file on every path. -/
def transcribeWithWhisper (env : WhisperEnv) : List FsOp × Res Str :=
  match env.stat with
  | .err e => ([.unlink .outputFlac], .err e)
  | .ok _ =>
    if ¬ env.keyPresent then
      ([.unlink .outputFlac],
        .err "OpenAI API key not configured for Whisper transcription.".toList)
    else
      match env.readFile with
      | .err e => ([.unlink .outputFlac], .err e)
      | .ok _ =>
        match env.transcribe with
        | .err e => ([.unlink .outputFlac], .err e)
        | .ok t => ([.unlink .outputFlac], .ok t)

/-- Files created by a run and never deleted afterwards. -/
def leftoverFiles (ops : List FsOp) : List AudioFile :=
  [AudioFile.tempMp3, AudioFile.outputFlac].filter
    (fun f => ops.contains (.create f) && ! ops.contains (.unlink f))

/-- Failing input for C9: a run whose ffmpeg transcode fails after the temp
MP3 was downloaded. -/
def envC9 : AudioEnv :=
  { getInfo := .ok ()
    formatFound := true
    download := .ok ()
    tempSize := 1
    ffmpeg := .err "ffmpeg exited with code 1".toList
    outSize := 0 }

/-- C9 (evidence of the code bug): when the ffmpeg conversion fails after
the temp MP3 was written, the run performs no unlink at all — the catch
block's `fs.exists` call throws before the cleanup — so the temp MP3 is
left behind and a TypeError replaces the original error, contradicting the
guaranteed-cleanup claim. -/
theorem downloadAudio_cleanup_bug :
    (downloadAudio envC9).1 = [.create .tempMp3] ∧
    (downloadAudio envC9).2 =
      .err "TypeError: fs.exists is not a function".toList ∧
    leftoverFiles (downloadAudio envC9).1 = [.tempMp3] := by
  refine ⟨by decide, by decide, by decide⟩

end YtSum
